import Mathlib

/-!
Shallow embedding of the bicamrl editor core
(`src/packages/editor/core/src/{types,state,actions,effects,reducer}.rs`).

Modelling conventions:
* `String` maps are association lists with unique keys; `insertA` replaces
  in place (the position of an existing key is preserved) and otherwise
  appends, `modifyA` edits the value at a key if present, mirroring
  `HashMap::insert` / `HashMap::get_mut`.  The list order stands for the
  (per-instance stable) iteration order of the Rust `HashMap`.
* `serde_json::Value` is the opaque inductive `Json`.
* `chrono::DateTime<Utc>` is a `Nat`; the reducer's calls to
  `chrono::Utc::now()` are modelled by an explicit `now : Nat` argument
  threaded into `reduce`.
* Rust `Result<T, E>` is `Except E T`.
-/

namespace Bicamrl

/-- Opaque stand-in for `serde_json::Value`. -/
inductive Json where
  | null
  | str (s : String)
  | num (n : Int)
  | bool (b : Bool)
deriving DecidableEq

/-- Association-list lookup (`HashMap::get` / `contains_key`). -/
def lookupA {α : Type} (k : String) : List (String × α) → Option α
  | [] => none
  | (k', v) :: rest => if k' = k then some v else lookupA k rest

/-- Association-list insert (`HashMap::insert`): replaces the value at an
existing key in place, otherwise appends the new binding. -/
def insertA {α : Type} (k : String) (v : α) : List (String × α) → List (String × α)
  | [] => [(k, v)]
  | (k', v') :: rest => if k' = k then (k, v) :: rest else (k', v') :: insertA k v rest

/-- Association-list in-place update (`HashMap::get_mut` followed by a
mutation of the value): applies `f` at the key if present, no-op otherwise. -/
def modifyA {α : Type} (k : String) (f : α → α) : List (String × α) → List (String × α)
  | [] => []
  | (k', v) :: rest => if k' = k then (k', f v) :: rest else (k', v) :: modifyA k f rest

/-- `InteractionType` from `types.rs`. -/
inductive InteractionType where
  | query
  | action
  | observation
  | feedback
  | system
  | reflection
deriving DecidableEq

/-- `ConversationItem` from `types.rs`. -/
structure ConversationItem where
  role : String
  content : String
  timestamp : Nat
  metadata : Option (List (String × Json))
deriving DecidableEq

/-- `Event` from `types.rs`: one entry of an interaction's history log. -/
structure Event where
  agent_id : String
  action : String
  content : Json
  metadata : Option (List (String × Json))
  timestamp : Nat
deriving DecidableEq

/-- `Interaction` from `types.rs`. -/
structure Interaction where
  id : String
  source : String
  interaction_type : InteractionType
  content : List ConversationItem
  needs_work : Bool
  review_stack : List String
  history : List Event
  metadata : List (String × Json)
  timestamp : Nat
deriving DecidableEq

/-- `InteractionQueueStatus` from `types.rs`. -/
structure InteractionQueueStatus where
  queue_size : Nat
  needs_work : Nat
  needs_review : Nat
  processing : Nat
  completed : Nat
  analyzing : Nat
deriving DecidableEq

/-- `InteractionDraft` from `types.rs`. -/
structure InteractionDraft where
  content : String
  interaction_type : InteractionType
  review_stack : List String
  metadata : List (String × Json)
deriving DecidableEq

/-- `EditorState` from `state.rs`. -/
structure EditorState where
  session_id : String
  interactions : List (String × Interaction)
  draft : InteractionDraft
  queue_status : Option InteractionQueueStatus
  pending_reviews : List String
  connected : Bool
  error : Option String
deriving DecidableEq

/-- `EditorState::default` from `state.rs`. -/
def EditorState.default : EditorState where
  session_id := "default-session"
  interactions := []
  draft :=
    { content := ""
      interaction_type := InteractionType.query
      review_stack := ["user"]
      metadata := [] }
  queue_status := none
  pending_reviews := []
  connected := false
  error := none

/-- `EditorState::get_review_queue` from `state.rs`: interactions with
`!needs_work` whose review stack's `.last()` is `"user"`, in map iteration
order. -/
def EditorState.get_review_queue (s : EditorState) : List Interaction :=
  (s.interactions.map Prod.snd).filter
    (fun i => !i.needs_work && (i.review_stack.getLast? == some "user"))

/-- `Action` from `actions.rs`. -/
inductive EditorAction where
  | UpdateDraftContent (content : String)
  | SetDraftType (interaction_type : InteractionType)
  | AddToReviewStack (reviewer_id : String)
  | RemoveFromReviewStack (reviewer_id : String)
  | ReorderReviewStack (from_index : Nat) (to_index : Nat)
  | SetDraftMetadata (key : String) (value : Json)
  | ClearDraft
  | SubmitInteraction
  | InteractionSubmitted (result : Except String Interaction)
  | SubmitReview (interaction_id : String) (approved : Bool) (feedback : Option String)
  | ReviewSubmitted (result : Except String Unit)
  | UpdateQueueStatus (status : InteractionQueueStatus)
  | InteractionPosted (interaction : Interaction)
  | InteractionProcessing (interaction_id : String) (agent_id : String)
  | InteractionCompleted (interaction_id : String) (result : Json)
  | SetError (message : String)
  | ClearError
  | Connect (server_url : String)
  | Connected
  | Disconnected (reason : Option String)

/-- `Effect` from `effects.rs`. -/
inductive Effect where
  | SubmitInteraction (session_id : String) (content : String)
      (interaction_type : InteractionType) (metadata : List (String × Json))
  | SubmitReview (interaction_id : String) (approved : Bool) (feedback : Option String)
  | ConnectToStream (server_url : String) (session_id : String)
  | FetchQueueStatus
deriving DecidableEq

/-- The `match action` body of `reduce` in `reducer.rs`, before the final
`pending_reviews` recompute.  `now` models the value `chrono::Utc::now()`
returns during this reduction. -/
def reduceCore (s : EditorState) (a : EditorAction) (now : Nat) :
    EditorState × List Effect :=
  match a with
  | .UpdateDraftContent content =>
      ({ s with draft := { s.draft with content := content } }, [])
  | .SetDraftType interaction_type =>
      ({ s with draft := { s.draft with interaction_type := interaction_type } }, [])
  | .AddToReviewStack reviewer_id =>
      if reviewer_id ∈ s.draft.review_stack then (s, [])
      else ({ s with draft :=
        { s.draft with review_stack := s.draft.review_stack ++ [reviewer_id] } }, [])
  | .RemoveFromReviewStack reviewer_id =>
      ({ s with draft :=
        { s.draft with review_stack :=
            s.draft.review_stack.filter (fun id => id != reviewer_id) } }, [])
  | .ReorderReviewStack from_index to_index =>
      if h : from_index < s.draft.review_stack.length ∧
             to_index < s.draft.review_stack.length then
        let item := s.draft.review_stack.get ⟨from_index, h.1⟩
        ({ s with draft :=
          { s.draft with review_stack :=
              (s.draft.review_stack.eraseIdx from_index).insertIdx to_index item } }, [])
      else (s, [])
  | .SetDraftMetadata key value =>
      ({ s with draft :=
        { s.draft with metadata := insertA key value s.draft.metadata } }, [])
  | .ClearDraft =>
      ({ s with draft :=
        { content := ""
          interaction_type := InteractionType.query
          review_stack := ["user"]
          metadata := [] } }, [])
  | .SubmitInteraction =>
      if ¬ s.draft.content = "" ∧ s.connected = true then
        (s, [Effect.SubmitInteraction s.session_id s.draft.content
              s.draft.interaction_type s.draft.metadata])
      else if s.connected = false then
        ({ s with error := some "Not connected to server" }, [])
      else (s, [])
  | .InteractionSubmitted (.ok interaction) =>
      ({ s with
          interactions := insertA interaction.id interaction s.interactions
          draft := { s.draft with content := "" }
          error := none }, [])
  | .InteractionSubmitted (.error e) =>
      ({ s with error := some e }, [])
  | .SubmitReview interaction_id approved feedback =>
      if (lookupA interaction_id s.interactions).isSome then
        (s, [Effect.SubmitReview interaction_id approved feedback])
      else (s, [])
  | .ReviewSubmitted (.ok _) =>
      ({ s with error := none }, [])
  | .ReviewSubmitted (.error e) =>
      ({ s with error := some e }, [])
  | .UpdateQueueStatus status =>
      ({ s with queue_status := some status }, [])
  | .InteractionPosted interaction =>
      ({ s with interactions := insertA interaction.id interaction s.interactions }, [])
  | .InteractionProcessing interaction_id agent_id =>
      ({ s with interactions := modifyA interaction_id (fun i =>
          { i with history := i.history ++
              [{ agent_id := agent_id, action := "processing", content := Json.null,
                 metadata := none, timestamp := now }] }) s.interactions }, [])
  | .InteractionCompleted interaction_id result =>
      ({ s with interactions := modifyA interaction_id (fun i =>
          { i with needs_work := false, history := i.history ++
              [{ agent_id := "system", action := "completed", content := result,
                 metadata := none, timestamp := now }] }) s.interactions }, [])
  | .SetError message =>
      ({ s with error := some message }, [])
  | .ClearError =>
      ({ s with error := none }, [])
  | .Connect server_url =>
      (s, [Effect.ConnectToStream server_url s.session_id])
  | .Connected =>
      ({ s with connected := true, error := none }, [Effect.FetchQueueStatus])
  | .Disconnected reason =>
      match reason with
      | some r =>
          ({ s with connected := false, error := some ("Disconnected: " ++ r) }, [])
      | none =>
          ({ s with connected := false }, [])

/-- The unconditional `pending_reviews` recompute at the end of `reduce`:
`get_review_queue` mapped to ids. -/
def pendingOf (s : EditorState) : List String :=
  s.get_review_queue.map (fun i => i.id)

/-- `reduce` from `reducer.rs`: the action dispatch followed by the
unconditional `pending_reviews` recompute on the new state. -/
def reduce (s : EditorState) (a : EditorAction) (now : Nat) :
    EditorState × List Effect :=
  let r := reduceCore s a now
  ({ r.1 with pending_reviews := pendingOf r.1 }, r.2)

/-! ### Helper lemmas -/

/-- The spec's wording of the pending-reviews set: the stable, order-preserving
sequence of ids of interactions with `needs_work == false` whose review
stack's next required approver (the top of the stack, its last element) is
the local user `"user"`. -/
def specPendingReviews (s : EditorState) : List String :=
  ((s.interactions.map Prod.snd).filter
    (fun i => decide (i.needs_work = false ∧ i.review_stack.getLast? = some "user"))).map
    (fun i => i.id)

theorem review_filter_pred_eq (i : Interaction) :
    (!i.needs_work && (i.review_stack.getLast? == some "user")) =
    decide (i.needs_work = false ∧ i.review_stack.getLast? = some "user") := by
  cases h : i.needs_work <;>
    by_cases h2 : i.review_stack.getLast? = some "user" <;> simp [h, h2]

theorem pendingOf_eq_spec (s : EditorState) : pendingOf s = specPendingReviews s := by
  unfold pendingOf specPendingReviews EditorState.get_review_queue
  congr 1
  exact List.filter_congr (fun i _ => review_filter_pred_eq i)

theorem pendingOf_congr (s s' : EditorState) (h : s.interactions = s'.interactions) :
    pendingOf s = pendingOf s' := by
  unfold pendingOf EditorState.get_review_queue
  rw [h]

theorem lookupA_insertA_self {α : Type} (k : String) (v : α) (m : List (String × α)) :
    lookupA k (insertA k v m) = some v := by
  induction m with
  | nil => simp [insertA, lookupA]
  | cons p rest ih =>
      obtain ⟨k', v'⟩ := p
      by_cases h : k' = k <;> simp [insertA, lookupA, h, ih]

theorem modifyA_of_lookup_none {α : Type} (k : String) (f : α → α)
    (m : List (String × α)) (h : lookupA k m = none) : modifyA k f m = m := by
  induction m with
  | nil => rfl
  | cons p rest ih =>
      obtain ⟨k', v⟩ := p
      by_cases hk : k' = k
      · simp [lookupA, hk] at h
      · simp only [lookupA, hk, if_false, ite_false] at h
        simp [modifyA, hk, ih h]

/-! ### Concrete sample values used by witnesses and counterexamples -/

/-- A concrete interaction record. -/
def sampleInteraction : Interaction where
  id := "x"
  source := "user"
  interaction_type := InteractionType.query
  content := []
  needs_work := true
  review_stack := ["user"]
  history := []
  metadata := []
  timestamp := 0

/-- Default state holding `sampleInteraction` under its id. -/
def sampleState : EditorState :=
  { EditorState.default with interactions := [("x", sampleInteraction)] }

/-! ### Claim theorems -/

/-- C1: after every action, the returned state's `pending_reviews` equals the
stable, order-preserving sequence of ids of stored interactions with
`needs_work == false` and the local user `"user"` on top of the review stack
(`specPendingReviews`, phrased from the spec), the recompute the last lines of
`reduce` perform exactly once on the new state. -/
theorem reduce_pending_reviews_invariant (s : EditorState) (a : EditorAction)
    (now : Nat) :
    (reduce s a now).1.pending_reviews = specPendingReviews (reduce s a now).1 := by
  rw [← pendingOf_eq_spec]
  rfl

theorem reduceCore_session_id (s : EditorState) (a : EditorAction) (now : Nat) :
    (reduceCore s a now).1.session_id = s.session_id := by
  cases a
  case AddToReviewStack => simp only [reduceCore]; split <;> rfl
  case ReorderReviewStack => simp only [reduceCore]; split <;> rfl
  case SubmitInteraction => simp only [reduceCore]; split_ifs <;> rfl
  case InteractionSubmitted r => cases r <;> rfl
  case SubmitReview => simp only [reduceCore]; split <;> rfl
  case ReviewSubmitted r => cases r <;> rfl
  case Disconnected r => cases r <;> rfl
  all_goals rfl

/-- C10: no action changes the session id: the state `reduce` returns carries
the input state's `session_id` unchanged. -/
theorem reduce_preserves_session_id (s : EditorState) (a : EditorAction)
    (now : Nat) :
    (reduce s a now).1.session_id = s.session_id :=
  reduceCore_session_id s a now

/-- C6: reducing `InteractionSubmitted(Err(e))` sets `error = Some(e)`, emits
no effects, and changes nothing else: the draft (content, type, review stack,
metadata) and all other fields are carried over, with only the unconditional
`pending_reviews` recompute applied. -/
theorem interaction_submitted_err_preserves_draft (s : EditorState) (e : String)
    (now : Nat) :
    reduce s (.InteractionSubmitted (.error e)) now =
      ({ s with error := some e, pending_reviews := pendingOf s }, []) := rfl

/-- C7: reducing `InteractionSubmitted(Ok(i))` stores `i` at key `i.id`
(inserting or replacing), clears `draft.content` to the empty string while
keeping `draft.interaction_type`, `draft.review_stack` and `draft.metadata`,
and clears the error. -/
theorem interaction_submitted_ok_upserts (s : EditorState) (i : Interaction)
    (now : Nat) :
    lookupA i.id (reduce s (.InteractionSubmitted (.ok i)) now).1.interactions = some i ∧
    (reduce s (.InteractionSubmitted (.ok i)) now).1.draft.content = "" ∧
    (reduce s (.InteractionSubmitted (.ok i)) now).1.draft.interaction_type =
      s.draft.interaction_type ∧
    (reduce s (.InteractionSubmitted (.ok i)) now).1.draft.review_stack =
      s.draft.review_stack ∧
    (reduce s (.InteractionSubmitted (.ok i)) now).1.draft.metadata =
      s.draft.metadata ∧
    (reduce s (.InteractionSubmitted (.ok i)) now).1.error = none :=
  ⟨lookupA_insertA_self i.id i s.interactions, rfl, rfl, rfl, rfl, rfl⟩

/-- C2 counterexample: in the default state the draft content is empty and
`connected == false`; the claim says an empty draft is silently ignored with
no error regardless of the connected flag, but `reduce` takes the
`else if !connected` branch and sets `error = Some("Not connected to
server")`. -/
theorem submit_empty_disconnected_sets_error :
    (reduce EditorState.default .SubmitInteraction 0).1.error =
      some "Not connected to server" ∧
    EditorState.default.draft.content = "" ∧
    EditorState.default.connected = false ∧
    EditorState.default.error = none := ⟨rfl, rfl, rfl, rfl⟩

/-- C2 amended: reducing `SubmitInteraction` with an empty `draft.content`
emits no effects; if `connected == true` the state is unchanged (no error
set), while if `connected == false` the error becomes
`Some("Not connected to server")` — the disconnected branch fires even for an
empty draft. -/
theorem submit_empty_draft_amended (s : EditorState) (now : Nat)
    (h : s.draft.content = "") :
    (reduce s .SubmitInteraction now).2 = [] ∧
    (reduce s .SubmitInteraction now).1 =
      { s with
          error := if s.connected then s.error else some "Not connected to server",
          pending_reviews := pendingOf s } := by
  by_cases hc : s.connected = true
  · constructor
    · simp [reduce, reduceCore, h, hc]
    · simp [reduce, reduceCore, h, hc]
  · have hc' : s.connected = false := by
      cases hcv : s.connected
      · rfl
      · exact absurd hcv hc
    constructor
    · simp [reduce, reduceCore, h, hc']
    · simp [reduce, reduceCore, h, hc']
      exact pendingOf_congr _ _ rfl

/-- C2 witness: the amended statement at the default state (empty draft,
disconnected). -/
theorem submit_empty_draft_amended_witness :
    EditorState.default.draft.content = "" ∧
    ((reduce EditorState.default .SubmitInteraction 0).2 = [] ∧
     (reduce EditorState.default .SubmitInteraction 0).1 =
       { EditorState.default with
           error := if EditorState.default.connected then EditorState.default.error
                    else some "Not connected to server",
           pending_reviews := pendingOf EditorState.default }) :=
  ⟨rfl, submit_empty_draft_amended EditorState.default 0 rfl⟩

/-- Bool discriminator for the two actions whose handling in `reduce` reads
the wall clock (`chrono::Utc::now()`) to timestamp the appended history
event. -/
def readsClock : EditorAction → Bool
  | .InteractionProcessing _ _ => true
  | .InteractionCompleted _ _ => true
  | _ => false

/-- C3 counterexample: `reduce` reads the wall clock (modelled by the explicit
`now` argument) when an `InteractionProcessing` action hits a known id, so two
invocations with the same state and action but different clock readings return
different states: the appended history events carry different timestamps. -/
theorem reduce_not_clock_independent :
    reduce sampleState (.InteractionProcessing "x" "a") 0 ≠
    reduce sampleState (.InteractionProcessing "x" "a") 1 := by decide

/-- C3 amended: `reduce` is a pure function of state, action, and the current
clock reading; for every action other than `InteractionProcessing` and
`InteractionCompleted` (the two that timestamp history events with the clock)
the result does not depend on the clock at all. -/
theorem reduce_clock_independent_amended (s : EditorState) (a : EditorAction)
    (t1 t2 : Nat) (h : readsClock a = false) :
    reduce s a t1 = reduce s a t2 := by
  cases a
  case InteractionProcessing => simp [readsClock] at h
  case InteractionCompleted => simp [readsClock] at h
  case InteractionSubmitted r => cases r <;> rfl
  case ReviewSubmitted r => cases r <;> rfl
  all_goals rfl

/-- C3 witness: the amended statement at `ClearError` and clock readings 0
and 1. -/
theorem reduce_clock_independent_amended_witness :
    readsClock .ClearError = false ∧
    reduce EditorState.default .ClearError 0 =
      reduce EditorState.default .ClearError 1 :=
  ⟨rfl, reduce_clock_independent_amended EditorState.default .ClearError 0 1 rfl⟩

/-- C4: `reduce` is a total function by construction (it is a Lean `def`
returning a state/effect pair for every state and action); in particular
`ReorderReviewStack` with an out-of-range `from_index` or `to_index` fails the
bounds guard and is absorbed as a no-op: no effects, and the state unchanged
except for the unconditional `pending_reviews` recompute. -/
theorem reorder_out_of_range_noop (s : EditorState) (fi ti now : Nat)
    (h : s.draft.review_stack.length ≤ fi ∨ s.draft.review_stack.length ≤ ti) :
    reduce s (.ReorderReviewStack fi ti) now =
      ({ s with pending_reviews := pendingOf s }, []) := by
  have hc : ¬ (fi < s.draft.review_stack.length ∧
               ti < s.draft.review_stack.length) := by
    rcases h with h | h <;> omega
  simp [reduce, reduceCore, hc]

/-- C4 witness: reordering with `from_index = 5` in the default state (whose
review stack has length 1) is a no-op. -/
theorem reorder_out_of_range_noop_witness :
    EditorState.default.draft.review_stack.length ≤ 5 ∧
    reduce EditorState.default (.ReorderReviewStack 5 0) 0 =
      ({ EditorState.default with pending_reviews := pendingOf EditorState.default }, []) :=
  ⟨by decide, reorder_out_of_range_noop EditorState.default 5 0 0 (Or.inl (by decide))⟩

/-- C5: with a non-empty draft and `connected == true`, `SubmitInteraction`
emits exactly one `Effect.SubmitInteraction` whose session id, content, type
and metadata are copied from the state's session id and draft, and the
returned state is unchanged except for the unconditional `pending_reviews`
recompute (no interaction entity is created or modified). -/
theorem submit_interaction_success (s : EditorState) (now : Nat)
    (h1 : ¬ s.draft.content = "") (h2 : s.connected = true) :
    reduce s .SubmitInteraction now =
      ({ s with pending_reviews := pendingOf s },
       [Effect.SubmitInteraction s.session_id s.draft.content
          s.draft.interaction_type s.draft.metadata]) := by
  simp [reduce, reduceCore, h1, h2]

/-- A connected state with a non-empty draft. -/
def sampleDraftState : EditorState :=
  { EditorState.default with
      connected := true
      draft := { EditorState.default.draft with content := "hi" } }

/-- C5 witness: the success path at a concrete connected state with draft
content `"hi"`. -/
theorem submit_interaction_success_witness :
    ¬ sampleDraftState.draft.content = "" ∧
    sampleDraftState.connected = true ∧
    reduce sampleDraftState .SubmitInteraction 0 =
      ({ sampleDraftState with pending_reviews := pendingOf sampleDraftState },
       [Effect.SubmitInteraction sampleDraftState.session_id
          sampleDraftState.draft.content sampleDraftState.draft.interaction_type
          sampleDraftState.draft.metadata]) :=
  ⟨by decide, rfl, submit_interaction_success sampleDraftState 0 (by decide) rfl⟩

/-- C8: `SubmitReview`, `InteractionProcessing` and `InteractionCompleted` on
an id absent from `interactions` emit no effects, set no error, and return the
state unchanged except for the unconditional `pending_reviews` recompute. -/
theorem unknown_id_noop (s : EditorState) (id : String) (ap : Bool)
    (fb : Option String) (ag : String) (res : Json) (now : Nat)
    (h : lookupA id s.interactions = none) :
    reduce s (.SubmitReview id ap fb) now =
      ({ s with pending_reviews := pendingOf s }, []) ∧
    reduce s (.InteractionProcessing id ag) now =
      ({ s with pending_reviews := pendingOf s }, []) ∧
    reduce s (.InteractionCompleted id res) now =
      ({ s with pending_reviews := pendingOf s }, []) := by
  have h1 : (lookupA id s.interactions).isSome = false := by rw [h]; rfl
  have key : ∀ f : Interaction → Interaction, modifyA id f s.interactions = s.interactions :=
    fun f => modifyA_of_lookup_none id f s.interactions h
  refine ⟨?_, ?_, ?_⟩
  · simp [reduce, reduceCore, h1]
  · simp [reduce, reduceCore, key]
  · simp [reduce, reduceCore, key]

/-- C8 witness: the three no-ops at the default state (empty interaction map)
and id `"x"`. -/
theorem unknown_id_noop_witness :
    lookupA "x" EditorState.default.interactions = none ∧
    reduce EditorState.default (.SubmitReview "x" true none) 0 =
      ({ EditorState.default with pending_reviews := pendingOf EditorState.default }, []) :=
  ⟨rfl, (unknown_id_noop EditorState.default "x" true none "a" Json.null 0 rfl).1⟩

/-- C9: when the id of the interaction carried by `InteractionPosted` or
`InteractionSubmitted(Ok)` is already stored, the stored record is replaced
wholesale by the incoming value — afterwards the map holds exactly the
incoming interaction, so history events appended locally to the old record are
discarded. -/
theorem upsert_replaces_wholesale (s : EditorState) (i old : Interaction)
    (now : Nat) (h : lookupA i.id s.interactions = some old) :
    lookupA i.id (reduce s (.InteractionPosted i) now).1.interactions = some i ∧
    lookupA i.id
      (reduce s (.InteractionSubmitted (.ok i)) now).1.interactions = some i :=
  ⟨lookupA_insertA_self i.id i s.interactions,
   lookupA_insertA_self i.id i s.interactions⟩

/-- An interaction with the same id as `sampleInteraction` but a non-empty
locally appended history, standing for the old stored record. -/
def sampleOldInteraction : Interaction :=
  { sampleInteraction with
      history := [{ agent_id := "a", action := "processing",
                    content := Json.null, metadata := none, timestamp := 3 }] }

/-- Default state storing `sampleOldInteraction` (which has local history)
under id `"x"`. -/
def sampleStateWithHistory : EditorState :=
  { EditorState.default with interactions := [("x", sampleOldInteraction)] }

/-- C9 witness: posting `sampleInteraction` (empty history) over the stored
`sampleOldInteraction` (one local history event) leaves exactly the incoming
record in the map. -/
theorem upsert_replaces_wholesale_witness :
    lookupA "x" sampleStateWithHistory.interactions = some sampleOldInteraction ∧
    lookupA "x"
      (reduce sampleStateWithHistory (.InteractionPosted sampleInteraction) 0).1.interactions =
      some sampleInteraction :=
  ⟨rfl,
   (upsert_replaces_wholesale sampleStateWithHistory sampleInteraction
      sampleOldInteraction 0 rfl).1⟩

end Bicamrl
